import Mathlib

/-
Verification of the internal-access bridge of the geode cache client
(`src/cppcache/src/CacheRegionHelper.hpp`).

The bridge is the class `CacheRegionHelper` with two inline static
accessors:

  inline static CacheImpl* getCacheImpl(const Cache* cache) {
    return cache->m_cacheImpl;
  }

  inline static DistributedSystemImpl* getDistributedSystemImpl() {
    return DistributedSystem::m_impl;
  }

The facade type `Cache` (with its private field `m_cacheImpl`) and the
static slot `DistributedSystem::m_impl` are declared in headers that are
not part of the given sources; those collaborators are modelled from the
specification, as marked on each definition below.
-/

namespace Geode

/-- Addresses identifying heap objects (facade objects and implementation
objects) in the embedding. -/
abbrev Addr := Nat

/-- A C++ pointer: either null (`none`) or the address of an object. -/
abbrev Ptr := Option Addr

/-- Modelled from the spec: the public `Cache` facade type (declared in
`gfcpp/Cache.hpp`, which is missing from the sources). Per the data model
it is an opaque handle holding a private pointer `m_cacheImpl` to the one
implementation object it owns. -/
structure Cache where
  m_cacheImpl : Ptr
  deriving DecidableEq

/-- The state visible to the bridge: the heap of facade objects (`none` at
unallocated or already destroyed addresses) and the process-wide static
slot `DistributedSystem::m_impl`. The slot itself is modelled from the
spec, since `gfcpp/DistributedSystem.hpp` is missing from the sources. -/
structure World where
  caches : Addr → Option Cache
  m_impl : Ptr

/-- Embedding of `CacheRegionHelper::getCacheImpl` (CacheRegionHelper.hpp
lines 37 to 39): dereference the `cache` pointer and read its private
`m_cacheImpl` field. The call is state passing, so that freedom from side
effects is expressible; a null or dangling `cache` pointer yields `none`,
the embedding's marker for behavior undefined at this layer. -/
def getCacheImpl (w : World) (cache : Ptr) : Option (Ptr × World) :=
  match cache with
  | none => none
  | some a =>
    match w.caches a with
    | none => none
    | some c => some (c.m_cacheImpl, w)

/-- Embedding of `CacheRegionHelper::getDistributedSystemImpl`
(CacheRegionHelper.hpp lines 41 to 43): read the process-wide static
pointer `DistributedSystem::m_impl`. The call always succeeds and is
state passing for the same reason as `getCacheImpl`. -/
def getDistributedSystemImpl (w : World) : Ptr × World :=
  (w.m_impl, w)

/-- The value component of a `getCacheImpl` result, with the resulting
world dropped. -/
def retVal (o : Option (Ptr × World)) : Option Ptr := o.map Prod.fst

/-- A live, fully constructed facade handle: a non-null pointer to an
allocated `Cache` object whose owned implementation pointer is non-null
(the facade invariant of the data model). -/
def liveHandle (w : World) (p : Ptr) : Prop :=
  ∃ a c, p = some a ∧ w.caches a = some c ∧ c.m_cacheImpl ≠ none

/-- Exclusive ownership (data-model invariant): distinct allocated facade
objects own distinct implementation objects. -/
def exclusiveOwnership (w : World) : Prop :=
  ∀ a1 a2 c1 c2, w.caches a1 = some c1 → w.caches a2 = some c2 →
    a1 ≠ a2 → c1.m_cacheImpl ≠ c2.m_cacheImpl

/-- Modelled from the spec: the events of the connection-lifecycle
collaborator. Establishing a connection creates an implementation object
and installs it in the process-wide slot; tearing the connection down
destroys the object and clears the slot. -/
inductive ConnEvent
  | connect (a : Addr)
  | disconnect
  deriving DecidableEq

/-- Modelled from the spec: the state of the connection-lifecycle
collaborator, namely the process-wide slot `DistributedSystem::m_impl`
together with the collection of live connection implementation objects. -/
structure ConnState where
  m_impl : Ptr
  liveConns : List Addr
  deriving DecidableEq

/-- Modelled from the spec: initially no connection has ever been
established, so the slot is absent and no connection object is live. -/
def connInit : ConnState := ⟨none, []⟩

/-- Modelled from the spec: one lifecycle step. The slot is set exactly
once per connection establishment (a connect attempt while already
connected installs nothing) and cleared on teardown, which destroys the
connection implementation object. -/
def connStep (s : ConnState) (e : ConnEvent) : ConnState :=
  match e with
  | .connect a =>
    match s.m_impl with
    | none => ⟨some a, [a]⟩
    | some _ => s
  | .disconnect => ⟨none, []⟩

/-- The lifecycle state reached by a sequence of events from the initial
state. -/
def connRun (es : List ConnEvent) : ConnState := es.foldl connStep connInit

/-- The world the bridge sees at a given lifecycle state, over a fixed
facade heap. -/
def connWorld (caches : Addr → Option Cache) (s : ConnState) : World :=
  ⟨caches, s.m_impl⟩

/-- The singleton invariant of the process-wide slot: the slot is absent
exactly when no connection implementation object is live, and otherwise it
names the single live one. -/
def connInv (s : ConnState) : Prop :=
  (s.m_impl = none ∧ s.liveConns = []) ∨
    (∃ a, s.m_impl = some a ∧ s.liveConns = [a])

/-- A concrete facade heap with two live facades at addresses 0 and 1,
owning implementation objects 10 and 11 respectively. -/
def cachesEx : Addr → Option Cache
  | 0 => some ⟨some 10⟩
  | 1 => some ⟨some 11⟩
  | _ => none

/-- A concrete world over `cachesEx` with no connection established. -/
def wEx : World := ⟨cachesEx, none⟩

/-- A concrete world over `cachesEx` with a connection installed at
address 5. -/
def wEx2 : World := ⟨cachesEx, some 5⟩

lemma cachesEx_exclusive : exclusiveOwnership wEx := by
  intro a1 a2 c1 c2 h1 h2 hne
  have h1x : cachesEx a1 = some c1 := h1
  have h2x : cachesEx a2 = some c2 := h2
  have ha1 : a1 = 0 ∨ a1 = 1 := by
    rcases a1 with _ | _ | n
    · exact Or.inl rfl
    · exact Or.inr rfl
    · simp [cachesEx] at h1x
  have ha2 : a2 = 0 ∨ a2 = 1 := by
    rcases a2 with _ | _ | n
    · exact Or.inl rfl
    · exact Or.inr rfl
    · simp [cachesEx] at h2x
  rcases ha1 with rfl | rfl <;> rcases ha2 with rfl | rfl <;>
    simp [cachesEx] at h1x h2x <;> subst h1x <;> subst h2x <;> simp_all

lemma foldl_connStep_connected (a : Addr) :
    ∀ (mid : List ConnEvent) (s : ConnState), s.m_impl = some a →
      ConnEvent.disconnect ∉ mid → (mid.foldl connStep s).m_impl = some a := by
  intro mid
  induction mid with
  | nil => intro s hs _; simpa using hs
  | cons e rest ih =>
    intro s hs hmem
    rw [List.mem_cons] at hmem
    push_neg at hmem
    cases e with
    | connect b =>
      rw [List.foldl_cons]
      apply ih
      · simp [connStep, hs]
      · exact hmem.2
    | disconnect => exact absurd rfl hmem.1

lemma connRun_inv (es : List ConnEvent) : connInv (connRun es) := by
  have key : ∀ (l : List ConnEvent) (s : ConnState), connInv s →
      connInv (l.foldl connStep s) := by
    intro l
    induction l with
    | nil => intro s h; simpa using h
    | cons e rest ih =>
      intro s h
      rw [List.foldl_cons]
      apply ih
      cases e with
      | connect b =>
        rcases h with ⟨hm, hl⟩ | ⟨a, hm, hl⟩
        · exact Or.inr ⟨b, by simp [connStep, hm]⟩
        · exact Or.inr ⟨a, by simp [connStep, hm, hl]⟩
      | disconnect => exact Or.inl (by simp [connStep])
  exact key es connInit (Or.inl ⟨rfl, rfl⟩)

/-- C1: for a non-null pointer to a live, fully constructed facade object,
`getCacheImpl` returns exactly the value of the facade's private
`m_cacheImpl` field and leaves the world unchanged, so no object is
constructed or destroyed and no ownership moves. -/
theorem C1_getCacheImpl_returns_owned_impl (w : World) (a : Addr) (c : Cache)
    (hc : w.caches a = some c) :
    getCacheImpl w (some a) = some (c.m_cacheImpl, w) := by
  simp [getCacheImpl, hc]

/-- Witness for C1 at a concrete live facade. -/
theorem C1_witness :
    wEx.caches 0 = some ⟨some 10⟩ ∧
    getCacheImpl wEx (some 0) = some (some 10, wEx) :=
  ⟨rfl, C1_getCacheImpl_returns_owned_impl wEx 0 ⟨some 10⟩ rfl⟩

/-- C2: before any connection has been established (the initial lifecycle
state, or a state just cleared by a teardown), `getDistributedSystemImpl`
returns the absent pointer; the call is total, so no structured error is
raised. -/
theorem C2_absent_before_connection (caches : Addr → Option Cache)
    (s : ConnState) :
    (getDistributedSystemImpl (connWorld caches connInit)).1 = none ∧
    (getDistributedSystemImpl
      (connWorld caches (connStep s ConnEvent.disconnect))).1 = none :=
  ⟨rfl, rfl⟩

/-- C3: referential stability of `getCacheImpl`. A successful call leaves
the world unchanged, and a second call on the resulting world returns the
identical implementation reference. -/
theorem C3_getCacheImpl_stable (w w2 : World) (p r : Ptr)
    (h : getCacheImpl w p = some (r, w2)) :
    getCacheImpl w2 p = some (r, w2) := by
  cases p with
  | none => simp [getCacheImpl] at h
  | some a =>
    cases hc : w.caches a with
    | none => simp [getCacheImpl, hc] at h
    | some c =>
      simp [getCacheImpl, hc] at h
      obtain ⟨hr, hw⟩ := h
      subst hw
      subst hr
      simp [getCacheImpl, hc]

/-- Witness for C3 at a concrete live facade. -/
theorem C3_witness : getCacheImpl wEx (some 0) = some (some 10, wEx) :=
  C3_getCacheImpl_stable wEx wEx (some 0) (some 10) rfl

/-- C4: no aliasing between distinct facades. Under exclusive ownership,
two distinct live facade handles yield distinct implementation references
from `getCacheImpl`. -/
theorem C4_getCacheImpl_no_aliasing (w : World) (p1 p2 : Ptr)
    (hx : exclusiveOwnership w) (h1 : liveHandle w p1) (h2 : liveHandle w p2)
    (hne : p1 ≠ p2) :
    retVal (getCacheImpl w p1) ≠ retVal (getCacheImpl w p2) := by
  obtain ⟨a1, c1, hp1, hc1, _⟩ := h1
  obtain ⟨a2, c2, hp2, hc2, _⟩ := h2
  subst hp1
  subst hp2
  have hane : a1 ≠ a2 := fun h => hne (by rw [h])
  have himpl := hx a1 a2 c1 c2 hc1 hc2 hane
  simp [retVal, getCacheImpl, hc1, hc2]
  exact himpl

/-- Witness for C4 at two concrete distinct live facades. -/
theorem C4_witness :
    retVal (getCacheImpl wEx (some 0)) ≠ retVal (getCacheImpl wEx (some 1)) :=
  C4_getCacheImpl_no_aliasing wEx (some 0) (some 1) cachesEx_exclusive
    ⟨0, ⟨some 10⟩, rfl, rfl, by decide⟩
    ⟨1, ⟨some 11⟩, rfl, rfl, by decide⟩
    (by decide)

/-- C5: connection-state lifecycle. If the slot is absent, then after a
connect event installing address `a`, and for as long as no disconnect
event occurs, `getDistributedSystemImpl` returns exactly `some a`; after a
subsequent disconnect it returns the absent pointer again. -/
theorem C5_connection_lifecycle (caches : Addr → Option Cache)
    (pre mid : List ConnEvent) (a : Addr)
    (hpre : (connRun pre).m_impl = none)
    (hmid : ConnEvent.disconnect ∉ mid) :
    (getDistributedSystemImpl
      (connWorld caches (connRun (pre ++ ConnEvent.connect a :: mid)))).1
        = some a ∧
    (getDistributedSystemImpl
      (connWorld caches
        (connRun ((pre ++ ConnEvent.connect a :: mid) ++
          [ConnEvent.disconnect])))).1 = none := by
  have key : (connRun (pre ++ ConnEvent.connect a :: mid)).m_impl = some a := by
    unfold connRun
    rw [List.foldl_append, List.foldl_cons]
    apply foldl_connStep_connected a mid _ _ hmid
    show (connStep (connRun pre) (ConnEvent.connect a)).m_impl = some a
    simp [connStep, hpre]
  constructor
  · exact key
  · show (connRun ((pre ++ ConnEvent.connect a :: mid) ++
      [ConnEvent.disconnect])).m_impl = none
    unfold connRun
    rw [List.foldl_append]
    simp [connStep]

/-- Witness for C5 on the concrete trace connect 5 then disconnect. -/
theorem C5_witness :
    (connRun ([] : List ConnEvent)).m_impl = none ∧
    ConnEvent.disconnect ∉ ([] : List ConnEvent) ∧
    (getDistributedSystemImpl
      (connWorld cachesEx (connRun ([] ++ ConnEvent.connect 5 :: [])))).1
        = some 5 ∧
    (getDistributedSystemImpl
      (connWorld cachesEx
        (connRun (([] ++ ConnEvent.connect 5 :: []) ++
          [ConnEvent.disconnect])))).1 = none :=
  ⟨rfl, by decide, C5_connection_lifecycle cachesEx [] [] 5 rfl (by decide)⟩

/-- C6: `getCacheImpl` performs no defensive check. Under the precondition
that the handle is non-null and live, the single field read succeeds: the
error branch of the embedding is unreachable and the world is returned
unchanged. -/
theorem C6_no_defensive_check (w : World) (p : Ptr) (h : liveHandle w p) :
    ∃ r, getCacheImpl w p = some (r, w) := by
  obtain ⟨a, c, hp, hc, _⟩ := h
  subst hp
  exact ⟨c.m_cacheImpl, by simp [getCacheImpl, hc]⟩

/-- Witness for C6 at a concrete live facade. -/
theorem C6_witness :
    liveHandle wEx (some 0) ∧
    ∃ r, getCacheImpl wEx (some 0) = some (r, wEx) :=
  ⟨⟨0, ⟨some 10⟩, rfl, rfl, by decide⟩,
    C6_no_defensive_check wEx (some 0) ⟨0, ⟨some 10⟩, rfl, rfl, by decide⟩⟩

/-- C7: both bridge operations are side-effect free. A successful
`getCacheImpl` call returns the input world unchanged, and
`getDistributedSystemImpl` always returns the input world unchanged. -/
theorem C7_side_effect_free (w w2 : World) (p r : Ptr)
    (h : getCacheImpl w p = some (r, w2)) :
    w2 = w ∧ (getDistributedSystemImpl w).2 = w := by
  refine ⟨?_, rfl⟩
  cases p with
  | none => simp [getCacheImpl] at h
  | some a =>
    cases hc : w.caches a with
    | none => simp [getCacheImpl, hc] at h
    | some c =>
      simp [getCacheImpl, hc] at h
      exact h.2.symm

/-- Witness for C7 at a concrete world. -/
theorem C7_witness :
    getCacheImpl wEx (some 0) = some (some 10, wEx) ∧
    wEx = wEx ∧ (getDistributedSystemImpl wEx).2 = wEx :=
  ⟨rfl, C7_side_effect_free wEx wEx (some 0) (some 10) rfl⟩

/-- C8: singleton invariant. In every lifecycle state reachable from the
initial state, at most one connection implementation object is live, and
`getDistributedSystemImpl` returns either the absent pointer (with no live
connection object) or exactly the single live one. -/
theorem C8_singleton_invariant (caches : Addr → Option Cache)
    (es : List ConnEvent) :
    (connRun es).liveConns.length ≤ 1 ∧
    (((getDistributedSystemImpl (connWorld caches (connRun es))).1 = none ∧
        (connRun es).liveConns = []) ∨
      (∃ a,
        (getDistributedSystemImpl (connWorld caches (connRun es))).1 = some a ∧
        (connRun es).liveConns = [a])) := by
  have hinv := connRun_inv es
  rcases hinv with ⟨hm, hl⟩ | ⟨a, hm, hl⟩
  · exact ⟨by simp [hl], Or.inl ⟨hm, hl⟩⟩
  · exact ⟨by simp [hl], Or.inr ⟨a, hm, hl⟩⟩

/-- C9: noninterference of the two accessors. The value returned by
`getCacheImpl` depends only on the facade heap, and the value returned by
`getDistributedSystemImpl` depends only on the process-wide slot: two
worlds agreeing on the relevant component give the same result. -/
theorem C9_noninterference (w1 w2 : World) (p : Ptr) :
    (w1.caches = w2.caches →
      retVal (getCacheImpl w1 p) = retVal (getCacheImpl w2 p)) ∧
    (w1.m_impl = w2.m_impl →
      (getDistributedSystemImpl w1).1 = (getDistributedSystemImpl w2).1) := by
  constructor
  · intro h
    cases p with
    | none => rfl
    | some a =>
      cases hc : w2.caches a <;> simp [retVal, getCacheImpl, h, hc]
  · intro h
    exact h

/-- Witness for C9: worlds agreeing on the facade heap but not the slot,
and worlds agreeing on the slot but not the facade heap. -/
theorem C9_witness :
    retVal (getCacheImpl wEx (some 0)) = retVal (getCacheImpl wEx2 (some 0)) ∧
    (getDistributedSystemImpl wEx2).1 =
      (getDistributedSystemImpl ⟨fun _ => none, some 5⟩).1 :=
  ⟨(C9_noninterference wEx wEx2 (some 0)).1 rfl,
    (C9_noninterference wEx2 ⟨fun _ => none, some 5⟩ (some 0)).2 rfl⟩

/-- C10: `getDistributedSystemImpl` is itself referentially stable: a
second call on the world produced by a first call returns the identical
result, absent or not. -/
theorem C10_getDistributedSystemImpl_stable (w : World) :
    (getDistributedSystemImpl (getDistributedSystemImpl w).2).1 =
      (getDistributedSystemImpl w).1 := rfl

end Geode
